import Mathlib

set_option maxHeartbeats 1000000
set_option maxRecDepth 100000

namespace ReasonChip

/-!
Verification of the ReasonChip core against its specification.

The definitions below are a shallow embedding of the Python sources:
  core/engine/engine.py          (EngineContext, Engine)
  net/protocol.py                (PacketType, ResultCode, SocketPacket, frame codec)
  net/worker/task_manager.py     (worker TaskManager)
  net/client/multiplexor.py      (client Multiplexor)
Stateful code is embedded as explicit state passing; exceptions become
Except/Option results; the cooperative single-threaded handlers are embedded
as pure transition functions.
-/

/-! ## Engine: core/engine/engine.py -/

/-- Python str.split with separator "." on a character list: splits on every
dot, keeping empty segments; the empty string yields one empty segment. -/
def splitDot : List Char → List (List Char)
  | [] => [[]]
  | c :: cs =>
    let r := splitDot cs
    if c = '.' then [] :: r
    else
      match r with
      | [] => [[c]]
      | h :: t => (c :: h) :: t

/-- Python ".".join on segments: interleave a dot between the segments. -/
def joinDot (parts : List (List Char)) : List Char :=
  List.intercalate ['.'] parts

/-- The num_dots loop of EngineContext._resolve (engine.py lines 134-139).
The source's loop body is: for part in parts: if part != "": num_dots += 1
else: break.  It therefore counts the leading run of NON-empty components of
the split name (despite the adjacent comment saying it counts the relative
dots, which are the leading EMPTY components). -/
def numDotsOf : List (List Char) → Nat
  | [] => 0
  | p :: ps => if p = [] then 0 else numDotsOf ps + 1

/-- Decidable equality for Except, used to evaluate the embedded functions at
concrete inputs. -/
instance {ε α : Type} [DecidableEq ε] [DecidableEq α] :
    DecidableEq (Except ε α) := fun x y =>
  match x, y with
  | Except.ok a, Except.ok b =>
    if h : a = b then Decidable.isTrue (by rw [h])
    else Decidable.isFalse (fun hh => h (Except.ok.inj hh))
  | Except.error a, Except.error b =>
    if h : a = b then Decidable.isTrue (by rw [h])
    else Decidable.isFalse (fun hh => h (Except.error.inj hh))
  | Except.ok _, Except.error _ =>
    Decidable.isFalse (fun hh => Except.noConfusion hh)
  | Except.error _, Except.ok _ =>
    Decidable.isFalse (fun hh => Except.noConfusion hh)

/-- Errors raised by the engine. workflowNotFound embeds
WorkflowNotFoundException, which engine.py raises; the exception class itself
is referenced from the exceptions module but not defined under src, so it is
carried here as a tagged value holding the offending name. -/
inductive EngineErr where
  | workflowNotFound (name : String)
  deriving DecidableEq, Repr

/-- EngineContext._resolve (engine.py lines 117-152), embedded over the call
stack (fully qualified names, most recent last): empty stack returns the name
unchanged; otherwise num_dots is computed by the loop above; num_dots = 0
returns the name unchanged; otherwise the top of stack is split, an excess of
num_dots over its length raises WorkflowNotFoundException, and otherwise the
result joins the first (length - num_dots) components of the top with the
components of the name after the first num_dots. -/
def resolve (stack : List String) (name : String) : Except EngineErr String :=
  match stack.getLast? with
  | none => Except.ok name
  | some top =>
    let parts := splitDot name.data
    let numDots := numDotsOf parts
    if numDots = 0 then Except.ok name
    else
      let current := splitDot top.data
      if numDots > current.length then
        Except.error (EngineErr.workflowNotFound name)
      else
        let base := current.take (current.length - numDots)
        let rest := parts.drop numDots
        Except.ok (String.mk (joinDot (base ++ rest)))

/-- Python fqn.rpartition restricted to what _fetch_callable needs: the pair
(module_path, func_name).  When the string holds no dot, module_path is empty
and func_name is the whole string, exactly as rpartition returns. -/
def rpartitionDot (s : String) : String × String :=
  let parts := splitDot s.data
  match parts.dropLast, parts.getLast? with
  | _, none => ("", s)
  | [], some _ => ("", s)
  | front, some last => (String.mk (joinDot front), String.mk last)

/-- Outcome of invoking a workflow step body.  RestartEngineException and
TerminateEngineException are the control-flow exceptions engine.py catches;
the classes are referenced from the exceptions module but not defined under
src, so they are modelled as tagged outcomes per the spec (sections 4.3, 9).
notFound embeds WorkflowNotFoundException escaping a step, and fuelOut marks
exhaustion of the explicit fuel given to the unbounded run loop. -/
inductive StepExc where
  | restartEngine (name : String) (arg : Int)
  | terminateEngine (v : Int)
  | notFound (name : String)
  | fuelOut
  deriving DecidableEq, Repr

/-- A workflow step body: receives its argument and returns a value or raises
one of the step outcomes. -/
def WorkflowBody : Type := Int → Except StepExc Int

/-- Modelled from the spec: EngineContext._fetch_callable (engine.py lines
154-182) imports the module of the fqn dynamically and caches the callable;
the dynamic import is not representable, and the spec's design note (section
9) replaces it with an explicit registry table fqn to body, the engine
returning not-found on a miss.  The rpartition emptiness check of lines
163-165 is kept from the source: an empty module path or function name raises
WorkflowNotFoundException. -/
def fetchCallable (reg : List (String × WorkflowBody)) (fqn : String) :
    Except StepExc WorkflowBody :=
  let mp := (rpartitionDot fqn).1
  let fn := (rpartitionDot fqn).2
  if mp = "" ∨ fn = "" then Except.error (StepExc.notFound fqn)
  else
    match reg.lookup fqn with
    | some b => Except.ok b
    | none => Except.error (StepExc.notFound fqn)

/-- EngineContext.branch (engine.py lines 61-115): resolve the name to a fqn,
fetch the callable, push the fqn, invoke the body; a RestartEngineException
raised by the body has its name re-resolved at the current stack depth (the
fqn still pushed) and is rethrown; everything else propagates; the stack pop
of the finally block is implicit since the stack is passed functionally. -/
def branch (reg : List (String × WorkflowBody)) (stack : List String)
    (name : String) (arg : Int) : Except StepExc Int :=
  match resolve stack name with
  | Except.error (EngineErr.workflowNotFound n) =>
    Except.error (StepExc.notFound n)
  | Except.ok fqn =>
    match fetchCallable reg fqn with
    | Except.error e => Except.error e
    | Except.ok body =>
      let stack2 := stack ++ [fqn]
      match body arg with
      | Except.ok v => Except.ok v
      | Except.error (StepExc.restartEngine n a) =>
        match resolve stack2 n with
        | Except.ok n2 => Except.error (StepExc.restartEngine n2 a)
        | Except.error (EngineErr.workflowNotFound m) =>
          Except.error (StepExc.notFound m)
      | Except.error e => Except.error e

/-- Engine.run (engine.py lines 193-241): loop invoking branch on a fresh
EngineContext (empty stack: branch is stack-balanced), rebinding the entry
and argument on RestartEngineException and returning the carried value on
TerminateEngineException; the unbounded while-loop is given explicit fuel. -/
def engineRun (reg : List (String × WorkflowBody)) :
    Nat → String → Int → Except StepExc Int
  | 0, _, _ => Except.error StepExc.fuelOut
  | Nat.succ fuel, entry, arg =>
    match branch reg [] entry arg with
    | Except.ok v => Except.ok v
    | Except.error (StepExc.restartEngine n a) => engineRun reg fuel n a
    | Except.error (StepExc.terminateEngine v) => Except.ok v
    | Except.error e => Except.error e

/-- The two-workflow registry of spec scenario S2: pkg.a raises
RestartEngine("pkg.b", x=2) and pkg.b returns x*3. -/
def s2Registry : List (String × WorkflowBody) :=
  [("pkg.a", fun _ => Except.error (StepExc.restartEngine "pkg.b" 2)),
   ("pkg.b", fun x => Except.ok (x * 3))]

/-- C1: with stack top pkg.sub.a, the source's _resolve leaves the dotted
relative names "..other" and ".sibling" unchanged (instead of resolving them
to pkg.other and pkg.sub.sibling), and maps the absolute name pkg.other to
"pkg" (instead of leaving it unchanged): the num_dots loop counts leading
non-empty components instead of leading dots, inverting the documented
dotted-relative rules at every one of the claim's inputs. -/
theorem c1_resolve_violates_relative_rules :
    resolve ["pkg.sub.a"] "..other" = Except.ok "..other" ∧
    resolve ["pkg.sub.a"] ".sibling" = Except.ok ".sibling" ∧
    resolve ["pkg.sub.a"] "pkg.other" = Except.ok "pkg" ∧
    Except.ok "pkg.other" ≠ resolve ["pkg.sub.a"] "..other" ∧
    Except.ok "pkg.sub.sibling" ≠ resolve ["pkg.sub.a"] ".sibling" := by
  refine ⟨rfl, rfl, rfl, ?_, ?_⟩ <;> decide

/-- C2: in scenario S2 the engine does not return 6: the restart name pkg.b
is rewritten by _resolve at stack depth one to the empty string (the inverted
num_dots loop treats the absolute name as two levels of relative dots), and
the restarted run then fails with WorkflowNotFoundException ""; in
particular the run result differs from Except.ok 6. -/
theorem c2_restart_scenario_fails :
    engineRun s2Registry 5 "pkg.a" 0 = Except.error (StepExc.notFound "") ∧
    engineRun s2Registry 5 "pkg.a" 0 ≠ Except.ok 6 := by
  refine ⟨rfl, ?_⟩
  decide

/-! ## Wire protocol: net/protocol.py -/

/-- PacketType (protocol.py lines 38-50). -/
inductive PacketType where
  | REGISTER
  | SHUTDOWN
  | RUN
  | CANCEL
  | RESULT
  deriving DecidableEq, Repr

/-- ResultCode (protocol.py lines 53-68). -/
inductive ResultCode where
  | OK
  | BAD_PACKET
  | UNSUPPORTED_PACKET_TYPE
  | NO_CAPACITY
  | NOT_FOR_US
  | COOKIE_NOT_FOUND
  | COOKIE_COLLISION
  | WORKER_WENT_AWAY
  | BROKER_WENT_AWAY
  | CANCELLED
  | EXCEPTION
  deriving DecidableEq, Repr

/-- SocketPacket (protocol.py lines 71-93): the wire packet record, with the
source's field names and declaration order.  The cookie is a 128-bit UUID
carried as a Nat; all carriers other than the tag are optional.  The
variables field keeps the source's name, escaped because it collides with a
Lean keyword. -/
structure SocketPacket where
  packet_type : PacketType
  cookie : Option Nat
  capacity : Option Int
  pipeline : Option String
  «variables» : Option String
  rc : Option ResultCode
  error : Option String
  stacktrace : Option (List String)
  result : Option String
  deriving DecidableEq, Repr

/-- A packet of the given type with every optional carrier unset. -/
def mkPacket (pt : PacketType) : SocketPacket :=
  ⟨pt, none, none, none, none, none, none, none, none⟩

/-! ## Worker TaskManager: net/worker/task_manager.py -/

/-- The worker TaskManager state relevant to packet handling: the declared
capacity, the cookies of the in-flight tasks (the keys of the tasks dict, in
insertion order), and the dying event. -/
structure TMState where
  maxCapacity : Nat
  tasks : List Nat
  dying : Bool
  deriving DecidableEq, Repr

/-- Result of one server-packet handler: the successor state, the packets the
handler itself sent on the transport, the engine run it spawned (cookie,
pipeline, variables), the cookie of the task it cancelled, and the boolean
the handler returned (True keeps the incoming-queue wait armed). -/
structure SrvOutcome where
  state : TMState
  emitted : List SocketPacket
  spawned : Option (Nat × String × Option String)
  cancelled : Option Nat
  restart : Bool
  deriving DecidableEq, Repr

/-- TaskManager._srv_run (worker/task_manager.py lines 313-353): reject when
the tasks dict is at capacity, when the cookie is absent or the pipeline is
absent or empty (the source's falsy test), or when the cookie collides with
an in-flight task; every rejection only logs and returns False.  Otherwise a
TaskInfo is recorded under the cookie and an engine task is spawned for the
packet's pipeline and variables. -/
def srvRun (s : TMState) (p : SocketPacket) : SrvOutcome :=
  if s.tasks.length ≥ s.maxCapacity then ⟨s, [], none, none, false⟩
  else
    match p.cookie, p.pipeline with
    | some ck, some pl =>
      if pl = "" then ⟨s, [], none, none, false⟩
      else if ck ∈ s.tasks then ⟨s, [], none, none, false⟩
      else
        ⟨{ s with tasks := s.tasks ++ [ck] }, [], some (ck, pl, p.variables),
          none, true⟩
    | _, _ => ⟨s, [], none, none, false⟩

/-- TaskManager._srv_cancel (worker/task_manager.py lines 355-379): a missing
cookie returns False; an unknown cookie is ignored with a warning and returns
True; a known cookie has its task cancelled (the tasks dict is untouched
until the task completes) and returns True. -/
def srvCancel (s : TMState) (p : SocketPacket) : SrvOutcome :=
  match p.cookie with
  | none => ⟨s, [], none, none, false⟩
  | some ck =>
    if ck ∈ s.tasks then ⟨s, [], none, some ck, true⟩
    else ⟨s, [], none, none, true⟩

/-- TaskManager._process_server_packet (worker/task_manager.py lines
282-311): None means the connection died (return False); otherwise dispatch
on the packet type, SHUTDOWN and unsupported types returning False. -/
def processServerPacket (s : TMState) (p : Option SocketPacket) : SrvOutcome :=
  match p with
  | none => ⟨s, [], none, none, false⟩
  | some pk =>
    match pk.packet_type with
    | PacketType.SHUTDOWN => ⟨s, [], none, none, false⟩
    | PacketType.RUN => srvRun s pk
    | PacketType.CANCEL => srvCancel s pk
    | _ => ⟨s, [], none, none, false⟩

/-- The restart decision of TaskManager._multiplexing (worker/task_manager.py
lines 255-264): when the handler returned True and the manager is not dying,
the incoming wait is re-armed; otherwise the dying event is set and the loop
drains and disconnects. -/
def afterProcess (o : SrvOutcome) : TMState :=
  if o.restart ∧ o.state.dying = false then o.state
  else { o.state with dying := true }

/-- How an engine-run task ended: a returned value (already serialized, None
when falsy), an exception with message and stacktrace, or cancellation. -/
inductive EngineOutcome where
  | finished (v : Option String)
  | raised (msg : String) (st : List String)
  | cancelled
  deriving DecidableEq, Repr

/-- TaskManager._run_engine (worker/task_manager.py lines 403-459): the
RESULT packets sent on the transport as a function of how the engine run
ended.  A normal return sends RESULT rc=OK with the serialized value; an
exception is caught by the except-Exception handler and sends RESULT
rc=EXCEPTION with error and stacktrace; a cancelled run ends with
asyncio.CancelledError, which is not an Exception subclass in the Python
versions this source requires, so neither handler runs and nothing is sent. -/
def runEngineEmits (cookie : Nat) : EngineOutcome → List SocketPacket
  | EngineOutcome.finished v =>
    [{ mkPacket PacketType.RESULT with
        cookie := some cookie, rc := some ResultCode.OK, result := v }]
  | EngineOutcome.raised m st =>
    [{ mkPacket PacketType.RESULT with
        cookie := some cookie, rc := some ResultCode.EXCEPTION,
        error := some m, stacktrace := some st }]
  | EngineOutcome.cancelled => []

/-- One atomic action of the worker TaskManager on its state: processing an
incoming packet (including the multiplexing loop's restart-or-die decision),
recognizing the completion of an in-flight task (tasks.pop), or an external
stop request setting dying. -/
inductive TMStep : TMState → TMState → Prop where
  | packet (s : TMState) (p : Option SocketPacket) :
    TMStep s (afterProcess (processServerPacket s p))
  | complete (s : TMState) (c : Nat) (h : c ∈ s.tasks) :
    TMStep s { s with tasks := s.tasks.erase c }
  | requestStop (s : TMState) :
    TMStep s { s with dying := true }

/-- Every handler keeps the declared capacity unchanged and the number of
in-flight tasks at or below it. -/
theorem processServerPacket_capacity (s : TMState) (p : Option SocketPacket)
    (h : s.tasks.length ≤ s.maxCapacity) :
    (processServerPacket s p).state.maxCapacity = s.maxCapacity ∧
    (processServerPacket s p).state.tasks.length ≤ s.maxCapacity := by
  rcases p with _ | ⟨pt, ck, cap, pl, vars, rc1, err, st, res⟩
  · exact ⟨rfl, h⟩
  · cases pt
    case REGISTER => exact ⟨rfl, h⟩
    case SHUTDOWN => exact ⟨rfl, h⟩
    case RESULT => exact ⟨rfl, h⟩
    case RUN =>
      simp only [processServerPacket, srvRun]
      split
      · exact ⟨rfl, h⟩
      · rename_i hcap
        cases ck <;> cases pl
        · exact ⟨rfl, h⟩
        · exact ⟨rfl, h⟩
        · exact ⟨rfl, h⟩
        · simp only []
          split
          · exact ⟨rfl, h⟩
          · split
            · exact ⟨rfl, h⟩
            · refine ⟨rfl, ?_⟩
              simp only [List.length_append, List.length_cons,
                List.length_nil]
              omega
    case CANCEL =>
      simp only [processServerPacket, srvCancel]
      cases ck
      · exact ⟨rfl, h⟩
      · simp only []
        split
        · exact ⟨rfl, h⟩
        · exact ⟨rfl, h⟩

/-- C6: the worker capacity invariant: every operation of the manager
(incoming-packet handling with the multiplexing loop's restart decision, task
completion, stop request) preserves the invariant that the number of
in-flight tasks is at most the declared capacity. -/
theorem c6_capacity_invariant (s s2 : TMState)
    (hinv : s.tasks.length ≤ s.maxCapacity) (hstep : TMStep s s2) :
    s2.tasks.length ≤ s2.maxCapacity := by
  cases hstep with
  | packet p =>
    have h12 := processServerPacket_capacity s p hinv
    simp only [afterProcess]
    split
    · omega
    · simp only []
      omega
  | complete c hmem =>
    simp only []
    have hsub := (List.erase_sublist c s.tasks).length_le
    omega
  | requestStop =>
    simpa using hinv

/-- Witness for C6 at a concrete step: a worker of capacity 2 with one task
accepts a RUN for a fresh cookie and stays within capacity. -/
theorem c6_capacity_invariant_witness :
    (⟨2, [5], false⟩ : TMState).tasks.length ≤
      (⟨2, [5], false⟩ : TMState).maxCapacity ∧
    (afterProcess (processServerPacket ⟨2, [5], false⟩
      (some { mkPacket PacketType.RUN with
                cookie := some 9, pipeline := some "pkg.a" }))).tasks.length ≤
    (afterProcess (processServerPacket ⟨2, [5], false⟩
      (some { mkPacket PacketType.RUN with
                cookie := some 9, pipeline := some "pkg.a" }))).maxCapacity :=
  ⟨by decide,
   c6_capacity_invariant _ _ (by decide)
     (TMStep.packet ⟨2, [5], false⟩
       (some { mkPacket PacketType.RUN with
                 cookie := some 9, pipeline := some "pkg.a" }))⟩

/-- C3: evaluation of the worker at the failing input.  Processing CANCEL for
the in-flight cookie 7 does cancel the task and leaves the tasks dict alone,
and an unknown cookie 9 is ignored; but the cancelled engine run emits no
RESULT packet at all (the except-Exception handler of _run_engine does not
catch asyncio.CancelledError), contradicting the claim that a RESULT with
rc=CANCELLED or rc=EXCEPTION is still emitted for the cookie. -/
theorem c3_cancelled_task_emits_no_result :
    (srvCancel ⟨4, [7], false⟩
      { mkPacket PacketType.CANCEL with cookie := some 7 }).cancelled =
        some 7 ∧
    (srvCancel ⟨4, [7], false⟩
      { mkPacket PacketType.CANCEL with cookie := some 7 }).state =
        ⟨4, [7], false⟩ ∧
    runEngineEmits 7 EngineOutcome.cancelled = [] ∧
    (srvCancel ⟨4, [7], false⟩
      { mkPacket PacketType.CANCEL with cookie := some 9 }).cancelled =
        none ∧
    (srvCancel ⟨4, [7], false⟩
      { mkPacket PacketType.CANCEL with cookie := some 9 }).state =
        ⟨4, [7], false⟩ := by
  refine ⟨?_, ?_, rfl, ?_, ?_⟩ <;> decide

/-- C4, counterexample: a RUN whose cookie collides with the in-flight task
(state capacity 4, task 7), and a RUN arriving at capacity (capacity 1, task
5), are both rejected with NO packet emitted (in particular no RESULT with
rc=COOKIE_COLLISION or rc=NO_CAPACITY), and in both cases the multiplexing
loop then sets dying, so the worker shuts down instead of keeping the
connection up. -/
theorem c4_admission_failure_counterexample :
    (srvRun ⟨4, [7], false⟩
      { mkPacket PacketType.RUN with
          cookie := some 7, pipeline := some "pkg.a" }).emitted = [] ∧
    (afterProcess (srvRun ⟨4, [7], false⟩
      { mkPacket PacketType.RUN with
          cookie := some 7, pipeline := some "pkg.a" })).dying = true ∧
    (srvRun ⟨1, [5], false⟩
      { mkPacket PacketType.RUN with
          cookie := some 9, pipeline := some "pkg.a" }).emitted = [] ∧
    (afterProcess (srvRun ⟨1, [5], false⟩
      { mkPacket PacketType.RUN with
          cookie := some 9, pipeline := some "pkg.a" })).dying = true := by
  refine ⟨?_, ?_, ?_, ?_⟩ <;> decide

/-- C4 as amended: a RUN whose cookie collides with an in-flight task, or
which arrives with the tasks dict at capacity, is rejected without emitting
any packet and without touching the existing tasks; the handler returns
False, so the multiplexing loop sets dying and the worker proceeds to shut
down (the connection does not remain up). -/
theorem c4_admission_failure_rejects_and_dies (s : TMState) (p : SocketPacket)
    (ck : Nat) (hpt : p.packet_type = PacketType.RUN)
    (hck : p.cookie = some ck)
    (hbad : ck ∈ s.tasks ∨ s.maxCapacity ≤ s.tasks.length) :
    processServerPacket s (some p) = ⟨s, [], none, none, false⟩ ∧
    afterProcess (processServerPacket s (some p)) = { s with dying := true } := by
  rcases p with ⟨pt, pck, cap, pl, vars, rc1, err, st, res⟩
  simp only at hpt hck
  subst hpt
  subst hck
  have hrun : srvRun s ⟨PacketType.RUN, some ck, cap, pl, vars, rc1, err, st, res⟩ =
      ⟨s, [], none, none, false⟩ := by
    simp only [srvRun]
    split
    · rfl
    · rename_i hcap
      cases pl
      · rfl
      · simp only []
        split
        · rfl
        · split
          · rfl
          · rename_i hmem
            rcases hbad with hb | hb
            · exact absurd hb hmem
            · omega
  have hproc : processServerPacket s
      (some ⟨PacketType.RUN, some ck, cap, pl, vars, rc1, err, st, res⟩) =
      ⟨s, [], none, none, false⟩ := by
    simp only [processServerPacket]
    exact hrun
  refine ⟨hproc, ?_⟩
  rw [hproc]
  simp [afterProcess]

/-- Witness for the amended C4 at the concrete collision input. -/
theorem c4_admission_failure_witness :
    ({ mkPacket PacketType.RUN with
        cookie := some 7, pipeline := some "pkg.a" } : SocketPacket).packet_type
      = PacketType.RUN ∧
    ({ mkPacket PacketType.RUN with
        cookie := some 7, pipeline := some "pkg.a" } : SocketPacket).cookie
      = some 7 ∧
    (7 ∈ (⟨4, [7], false⟩ : TMState).tasks ∨
      (⟨4, [7], false⟩ : TMState).maxCapacity ≤
        (⟨4, [7], false⟩ : TMState).tasks.length) ∧
    afterProcess (processServerPacket ⟨4, [7], false⟩
      (some { mkPacket PacketType.RUN with
                cookie := some 7, pipeline := some "pkg.a" })) =
      { (⟨4, [7], false⟩ : TMState) with dying := true } :=
  ⟨rfl, rfl, Or.inl (by decide),
   (c4_admission_failure_rejects_and_dies ⟨4, [7], false⟩
     { mkPacket PacketType.RUN with
         cookie := some 7, pipeline := some "pkg.a" }
     7 rfl rfl (Or.inl (by decide))).2⟩

/-! ## Client Multiplexor: net/client/multiplexor.py -/

/-- ConnectionInfo (client/multiplexor.py lines 19-23): the connection id,
its outstanding cookies (a Python list, in append order), and the contents of
its incoming queue in arrival order. -/
structure ConnectionInfo where
  connection_id : Nat
  cookies : List Nat
  inbox : List SocketPacket
  deriving DecidableEq, Repr

/-- The Multiplexor state (client/multiplexor.py lines 26-37): the
connections dict, the cookies dict, and the dead event.  The dicts are
association lists in insertion order; the source's cookies dict holds
references to ConnectionInfo objects, represented here by the connection
id the object was registered under. -/
structure MuxState where
  connections : List (Nat × ConnectionInfo)
  cookieMap : List (Nat × Nat)
  dead : Bool
  deriving DecidableEq, Repr

/-- Multiplexor.register (client/multiplexor.py lines 99-118): an already
registered id raises ValueError (None here); otherwise a fresh ConnectionInfo
is created and recorded. -/
def register (s : MuxState) (cid : Nat) :
    Option (MuxState × ConnectionInfo) :=
  if (s.connections.lookup cid).isSome then none
  else
    let ci : ConnectionInfo := ⟨cid, [], []⟩
    some ({ s with connections := s.connections ++ [(cid, ci)] }, ci)

/-- Multiplexor.release (client/multiplexor.py lines 120-137): returns False
when the id is unknown and True otherwise; the source performs no removal at
all (its own comment records that the cleanup logic is absent), so the state
is returned unchanged in both cases. -/
def release (s : MuxState) (cid : Nat) : MuxState × Bool :=
  if (s.connections.lookup cid).isSome then (s, true) else (s, false)

/-- Pointwise update of the ConnectionInfo registered under an id. -/
def updateConn (conns : List (Nat × ConnectionInfo)) (cid : Nat)
    (f : ConnectionInfo → ConnectionInfo) : List (Nat × ConnectionInfo) :=
  conns.map (fun pr => if pr.1 = cid then (pr.1, f pr.2) else pr)

/-- Multiplexor.send_packet (client/multiplexor.py lines 141-167): an unknown
connection id returns False before anything else happens; then the cookie
must be set (the assert; None models its failure); a new cookie is recorded
in the cookies dict and appended to the connection's cookie list; the packet
is handed to the transport, whose boolean is returned.  The result carries
the new state, the returned boolean, and the packets given to the
transport. -/
def sendPacket (s : MuxState) (cid : Nat) (p : SocketPacket)
    (transportOk : Bool) : Option (MuxState × Bool × List SocketPacket) :=
  match s.connections.lookup cid with
  | none => some (s, false, [])
  | some _ =>
    match p.cookie with
    | none => none
    | some ck =>
      if (s.cookieMap.lookup ck).isSome then some (s, transportOk, [p])
      else
        some ({ s with
                  cookieMap := s.cookieMap ++ [(ck, cid)],
                  connections := updateConn s.connections cid
                    (fun c => { c with cookies := c.cookies ++ [ck] }) },
              transportOk, [p])

/-- The synthetic terminal RESULT of the death process (client/multiplexor.py
lines 212-219). -/
def mkBrokerDeath (k : Nat) : SocketPacket :=
  { mkPacket PacketType.RESULT with
      cookie := some k,
      rc := some ResultCode.BROKER_WENT_AWAY,
      error := some "The connection to the broker went away" }

/-- Multiplexor._death_process (client/multiplexor.py lines 203-223): under
the lock, for every registered connection and every cookie in its list, one
synthetic RESULT rc=BROKER_WENT_AWAY is put on that connection's queue; then
both dicts are cleared.  The second component returns the final
ConnectionInfo records: the objects a waiting Client still holds after the
maps are cleared. -/
def deathProcess (s : MuxState) : MuxState × List ConnectionInfo :=
  ({ s with connections := [], cookieMap := [] },
   s.connections.map (fun pr =>
     { pr.2 with inbox := pr.2.inbox ++ pr.2.cookies.map mkBrokerDeath }))

/-- Multiplexor._incoming_callback for the EOF event (client/multiplexor.py
lines 179-183): the transport delivered None, so the death process runs and
the dead event is set. -/
def incomingEOF (s : MuxState) : MuxState × List ConnectionInfo :=
  ({ (deathProcess s).1 with dead := true }, (deathProcess s).2)

/-- Multiplexor._incoming_callback for a packet (client/multiplexor.py lines
186-199): the cookie must be set; an unknown cookie is logged and dropped;
otherwise the packet is appended to the owning connection's queue, and a
RESULT additionally removes the cookie from the connection's list and from
the cookies dict. -/
def incomingPacket (s : MuxState) (p : SocketPacket) : Option MuxState :=
  match p.cookie with
  | none => none
  | some ck =>
    match s.cookieMap.lookup ck with
    | none => some s
    | some cid =>
      let s2 := { s with
        connections := updateConn s.connections cid
          (fun c => { c with inbox := c.inbox ++ [p] }) }
      if p.packet_type = PacketType.RESULT then
        some { s2 with
          connections := updateConn s2.connections cid
            (fun c => { c with cookies := c.cookies.erase ck }),
          cookieMap := s2.cookieMap.eraseP (fun pr => pr.1 == ck) }
      else some s2

/-- C5: on transport EOF the death process empties both maps, sets dead, and
every registered connection's final queue is exactly its old queue followed
by one synthetic RESULT rc=BROKER_WENT_AWAY per outstanding cookie; when the
connection's cookie list has no duplicates, each of its cookies gains exactly
one such terminal RESULT and nothing else is enqueued. -/
theorem c5_death_process_exactly_one_terminal (s : MuxState) :
    (incomingEOF s).1.connections = [] ∧
    (incomingEOF s).1.cookieMap = [] ∧
    (incomingEOF s).1.dead = true ∧
    (incomingEOF s).2 = s.connections.map (fun pr =>
      { pr.2 with inbox := pr.2.inbox ++ pr.2.cookies.map mkBrokerDeath }) ∧
    (∀ cid ci, (cid, ci) ∈ s.connections → ci.cookies.Nodup →
      ∀ k, k ∈ ci.cookies →
        (ci.inbox ++ ci.cookies.map mkBrokerDeath).count (mkBrokerDeath k) =
          ci.inbox.count (mkBrokerDeath k) + 1) := by
  refine ⟨rfl, rfl, rfl, rfl, ?_⟩
  intro cid ci _ hnd k hk
  have hinj : Function.Injective mkBrokerDeath := by
    intro a b hab
    simpa [mkBrokerDeath, mkPacket] using hab
  rw [List.count_append, List.count_map_of_injective _ mkBrokerDeath hinj,
    List.count_eq_one_of_mem hnd hk]

/-- The concrete state of spec scenario S5: one logical client, two
outstanding cookies. -/
def s5Mux : MuxState :=
  ⟨[(3, ⟨3, [1, 2], []⟩)], [(1, 3), (2, 3)], false⟩

/-- Witness for C5 at scenario S5: with cookies 1 and 2 outstanding, cookie 1
receives exactly one synthetic terminal RESULT. -/
theorem c5_death_process_witness :
    ((3, (⟨3, [1, 2], []⟩ : ConnectionInfo)) ∈ s5Mux.connections) ∧
    (([] : List SocketPacket) ++
        ([1, 2] : List Nat).map mkBrokerDeath).count (mkBrokerDeath 1) =
      (([] : List SocketPacket)).count (mkBrokerDeath 1) + 1 :=
  ⟨by decide,
   (c5_death_process_exactly_one_terminal s5Mux).2.2.2.2 3 ⟨3, [1, 2], []⟩
     (by decide) (by decide) 1 (by decide)⟩

/-- The empty Multiplexor state. -/
def mux0 : MuxState := ⟨[], [], false⟩

/-- The state after registering connection 7 on the empty Multiplexor. -/
def c9s1 : MuxState := ⟨[(7, ⟨7, [], []⟩)], [], false⟩

/-- C9: evaluation of the code at the failing input.  After register(7),
release(7) returns True but the connection is still registered: the lookup
still succeeds, a second register(7) raises ValueError instead of
succeeding, and send_packet(7, p) still returns True and hands the packet to
the transport instead of returning False. -/
theorem c9_release_does_not_destroy :
    register mux0 7 = some (c9s1, ⟨7, [], []⟩) ∧
    release c9s1 7 = (c9s1, true) ∧
    (c9s1.connections.lookup 7).isSome = true ∧
    register c9s1 7 = none ∧
    sendPacket c9s1 7 { mkPacket PacketType.RUN with cookie := some 1 } true =
      some (⟨[(7, ⟨7, [1], []⟩)], [(1, 7)], false⟩, true,
            [{ mkPacket PacketType.RUN with cookie := some 1 }]) := by
  refine ⟨?_, ?_, ?_, ?_, ?_⟩ <;> decide

/-- C10: send_packet on an unregistered connection id returns False, hands
nothing to the transport, and leaves the whole state (both the connections
map and the cookie map) unchanged. -/
theorem c10_send_packet_unregistered (s : MuxState) (cid : Nat)
    (p : SocketPacket) (transportOk : Bool)
    (h : s.connections.lookup cid = none) :
    sendPacket s cid p transportOk = some (s, false, []) := by
  simp only [sendPacket, h]

/-- Witness for C10 on the empty Multiplexor. -/
theorem c10_send_packet_unregistered_witness :
    mux0.connections.lookup 7 = none ∧
    sendPacket mux0 7 (mkPacket PacketType.RUN) true = some (mux0, false, []) :=
  ⟨rfl,
   c10_send_packet_unregistered mux0 7 (mkPacket PacketType.RUN) true rfl⟩

/-! ## Frame codec: net/protocol.py send_packet / receive_packet

The two functions frame a packet as a 4-byte big-endian length followed by
that many bytes of UTF-8 JSON.  The JSON serialization itself is produced by
pydantic's model_dump_json and checked by model_validate_json, which are
library code outside src/; they are modelled below from the spec's wire
format (section 6): all nine fields in declaration order, null for unset
carriers, the UUID cookie as the dashed lowercase-hex string, enums as their
value strings.  The model's packet reader accepts the canonical serialized
form (pydantic additionally accepts reordered keys and whitespace, which the
round-trip property never exercises). -/

/-- Lowercase hexadecimal digit character. -/
def hexChar (n : Nat) : Char :=
  Char.ofNat (if n < 10 then 48 + n else 87 + n)

/-- Value of a lowercase hexadecimal digit character. -/
def hexVal (c : Char) : Option Nat :=
  if 48 ≤ c.toNat ∧ c.toNat ≤ 57 then some (c.toNat - 48)
  else if 97 ≤ c.toNat ∧ c.toNat ≤ 102 then some (c.toNat - 87)
  else none

theorem hexVal_hexChar : ∀ d, d < 16 → hexVal (hexChar d) = some d := by decide

/-- Fixed-width big-endian hexadecimal rendering of a natural number. -/
def natToHexBE : Nat → Nat → List Char
  | 0, _ => []
  | Nat.succ w, v => hexChar (v / 16 ^ w) :: natToHexBE w (v % 16 ^ w)

/-- Read exactly the given number of hexadecimal digits, accumulating. -/
def readHexAcc : Nat → Nat → List Char → Option (Nat × List Char)
  | 0, acc, cs => some (acc, cs)
  | Nat.succ _, _, [] => none
  | Nat.succ w, acc, c :: cs =>
    match hexVal c with
    | some d => readHexAcc w (acc * 16 + d) cs
    | none => none

theorem readHexAcc_natToHexBE :
    ∀ (w v acc : Nat) (rest : List Char), v < 16 ^ w →
      readHexAcc w acc (natToHexBE w v ++ rest) =
        some (acc * 16 ^ w + v, rest) := by
  intro w
  induction w with
  | zero =>
    intro v acc rest hv
    interval_cases v
    simp [natToHexBE, readHexAcc]
  | succ w ih =>
    intro v acc rest hv
    have hdigit : v / 16 ^ w < 16 := by
      have hpos : 0 < 16 ^ w := Nat.pos_pow_of_pos w (by omega)
      have : v < 16 ^ w * 16 := by
        have := pow_succ 16 w
        omega
      exact Nat.div_lt_of_lt_mul this
    have hmod : v % 16 ^ w < 16 ^ w :=
      Nat.mod_lt _ (Nat.pos_pow_of_pos w (by omega))
    simp only [natToHexBE, List.cons_append, readHexAcc,
      hexVal_hexChar _ hdigit, List.append_eq]
    rw [ih (v % 16 ^ w) (acc * 16 + v / 16 ^ w) rest hmod]
    have hsplit : (acc * 16 + v / 16 ^ w) * 16 ^ w + v % 16 ^ w =
        acc * 16 ^ (w + 1) + v := by
      have hdm := Nat.div_add_mod v (16 ^ w)
      have hp : 16 ^ (w + 1) = 16 ^ w * 16 := pow_succ 16 w
      nlinarith [hdm, hp]
    rw [hsplit]

/-- The dashed lowercase-hex rendering of a 128-bit UUID value, the form
str(uuid.UUID) takes and pydantic serializes: groups of 8, 4, 4, 4 and 12
hex digits. -/
def uuidChars (n : Nat) : List Char :=
  natToHexBE 8 (n / 16 ^ 24) ++ '-' ::
  (natToHexBE 4 (n / 16 ^ 20 % 16 ^ 4) ++ '-' ::
  (natToHexBE 4 (n / 16 ^ 16 % 16 ^ 4) ++ '-' ::
  (natToHexBE 4 (n / 16 ^ 12 % 16 ^ 4) ++ '-' ::
  natToHexBE 12 (n % 16 ^ 12))))

/-- Read a dashed UUID rendering back into its 128-bit value. -/
def readUuid (cs : List Char) : Option (Nat × List Char) :=
  match readHexAcc 8 0 cs with
  | some (a, '-' :: cs1) =>
    match readHexAcc 4 0 cs1 with
    | some (b, '-' :: cs2) =>
      match readHexAcc 4 0 cs2 with
      | some (c, '-' :: cs3) =>
        match readHexAcc 4 0 cs3 with
        | some (d, '-' :: cs4) =>
          match readHexAcc 12 0 cs4 with
          | some (e, rest) =>
            some (a * 16 ^ 24 + b * 16 ^ 20 + c * 16 ^ 16 + d * 16 ^ 12 + e,
              rest)
          | none => none
        | _ => none
      | _ => none
    | _ => none
  | _ => none

theorem readUuid_uuidChars (n : Nat) (rest : List Char) (hn : n < 16 ^ 32) :
    readUuid (uuidChars n ++ rest) = some (n, rest) := by
  have h8 : n / 16 ^ 24 < 16 ^ 8 := by
    have h : (16 : Nat) ^ 32 = 16 ^ 24 * 16 ^ 8 := by norm_num
    have hpos : 0 < (16 : Nat) ^ 24 := by positivity
    refine Nat.div_lt_of_lt_mul ?_
    omega
  have h4a : n / 16 ^ 20 % 16 ^ 4 < 16 ^ 4 := Nat.mod_lt _ (by positivity)
  have h4b : n / 16 ^ 16 % 16 ^ 4 < 16 ^ 4 := Nat.mod_lt _ (by positivity)
  have h4c : n / 16 ^ 12 % 16 ^ 4 < 16 ^ 4 := Nat.mod_lt _ (by positivity)
  have h12 : n % 16 ^ 12 < 16 ^ 12 := Nat.mod_lt _ (by positivity)
  simp only [uuidChars, readUuid, List.append_assoc, List.cons_append]
  rw [readHexAcc_natToHexBE 8 _ 0 _ h8]
  simp only []
  rw [readHexAcc_natToHexBE 4 _ 0 _ h4a]
  simp only []
  rw [readHexAcc_natToHexBE 4 _ 0 _ h4b]
  simp only []
  rw [readHexAcc_natToHexBE 4 _ 0 _ h4c]
  simp only []
  rw [readHexAcc_natToHexBE 12 _ 0 _ h12]
  simp only [Nat.zero_mul, Nat.zero_add, Option.some.injEq, Prod.mk.injEq]
  constructor
  · have e1 : (16 : Nat) ^ 24 = 79228162514264337593543950336 := by norm_num
    have e2 : (16 : Nat) ^ 20 = 1208925819614629174706176 := by norm_num
    have e3 : (16 : Nat) ^ 16 = 18446744073709551616 := by norm_num
    have e4 : (16 : Nat) ^ 12 = 281474976710656 := by norm_num
    have e5 : (16 : Nat) ^ 4 = 65536 := by norm_num
    have e6 : (16 : Nat) ^ 32 = 340282366920938463463374607431768211456 := by
      norm_num
    rw [e1, e2, e3, e4, e5] at *
    omega
  · trivial

/-- Decimal rendering of a natural number, most significant digit first. -/
def natDec (n : Nat) : List Char :=
  if _h : n < 10 then [hexChar n]
  else natDec (n / 10) ++ [hexChar (n % 10)]
termination_by n
decreasing_by exact Nat.div_lt_self (by omega) (by omega)

/-- Value of a decimal digit character. -/
def decVal (c : Char) : Option Nat :=
  if 48 ≤ c.toNat ∧ c.toNat ≤ 57 then some (c.toNat - 48) else none

theorem decVal_hexChar : ∀ d, d < 10 → decVal (hexChar d) = some d := by decide

theorem hexChar_ne_dash : ∀ d, d < 10 → hexChar d ≠ '-' := by decide

/-- Greedy decimal reader: consumes the maximal run of digits, accumulating;
zero digits yield the accumulator (the packet reader only ever runs it on the
canonical serialized form, where at least one digit is present). -/
def readDecAcc (acc : Nat) : List Char → Nat × List Char
  | [] => (acc, [])
  | c :: cs =>
    match decVal c with
    | some d => readDecAcc (acc * 10 + d) cs
    | none => (acc, c :: cs)

/-- Whether the head of the stream is a decimal digit. -/
def headIsDigit (cs : List Char) : Bool :=
  match cs with
  | [] => false
  | c :: _ => (decVal c).isSome

theorem readDecAcc_stop (a : Nat) (rest : List Char)
    (h : headIsDigit rest = false) : readDecAcc a rest = (a, rest) := by
  cases rest with
  | nil => rfl
  | cons c cs =>
    simp only [headIsDigit] at h
    cases hdv : decVal c with
    | none => simp [readDecAcc, hdv]
    | some d => rw [hdv] at h; simp at h

theorem natDec_head (n : Nat) :
    ∃ d ds, d < 10 ∧ natDec n = hexChar d :: ds := by
  induction n using Nat.strong_induction_on with
  | _ n ih =>
    rw [natDec]
    by_cases h : n < 10
    · exact ⟨n, [], h, by simp [h]⟩
    · have hdiv : n / 10 < n := Nat.div_lt_self (by omega) (by omega)
      obtain ⟨d, ds, hd, heq⟩ := ih (n / 10) hdiv
      exact ⟨d, ds ++ [hexChar (n % 10)], hd, by simp [h, heq]⟩

theorem readDecAcc_natDec :
    ∀ (n acc : Nat) (rest : List Char),
      readDecAcc acc (natDec n ++ rest) =
        readDecAcc (acc * 10 ^ (natDec n).length + n) rest := by
  intro n
  induction n using Nat.strong_induction_on with
  | _ n ih =>
    intro acc rest
    rw [natDec]
    by_cases h : n < 10
    · simp only [h, dite_true, List.cons_append, List.nil_append,
        List.length_cons, List.length_nil, readDecAcc, decVal_hexChar n h]
      norm_num
    · have hdiv : n / 10 < n := Nat.div_lt_self (by omega) (by omega)
      simp only [h, dite_false, List.append_assoc, List.cons_append,
        List.nil_append, List.length_append, List.length_cons,
        List.length_nil]
      rw [ih (n / 10) hdiv acc (hexChar (n % 10) :: rest)]
      simp only [readDecAcc, decVal_hexChar (n % 10) (Nat.mod_lt _ (by omega))]
      have harith :
          (acc * 10 ^ (natDec (n / 10)).length + n / 10) * 10 + n % 10 =
          acc * 10 ^ ((natDec (n / 10)).length + 1) + n := by
        have hdm := Nat.div_add_mod n 10
        have hp : (10 : Nat) ^ ((natDec (n / 10)).length + 1) =
            10 ^ (natDec (n / 10)).length * 10 := pow_succ 10 _
        nlinarith [hdm, hp]
      rw [harith]

/-- The decimal rendering of a Python int: a minus sign for negatives,
followed by the digits of the absolute value. -/
def intChars (i : Int) : List Char :=
  if i < 0 then '-' :: natDec i.natAbs else natDec i.natAbs

/-- Reader for the decimal rendering of an int. -/
def readIntChars (cs : List Char) : Int × List Char :=
  match cs with
  | '-' :: cs2 => ((-((readDecAcc 0 cs2).1 : Int) : Int), (readDecAcc 0 cs2).2)
  | _ => (((readDecAcc 0 cs).1 : Int), (readDecAcc 0 cs).2)

theorem readIntChars_intChars (i : Int) (rest : List Char)
    (h : headIsDigit rest = false) :
    readIntChars (intChars i ++ rest) = (i, rest) := by
  by_cases hneg : i < 0
  · simp only [intChars, hneg, ite_true, List.cons_append, readIntChars]
    rw [readDecAcc_natDec, readDecAcc_stop _ _ h]
    simp only [Nat.zero_mul, Nat.zero_add, Prod.mk.injEq]
    constructor
    · omega
    · trivial
  · obtain ⟨d, ds, hd, heq⟩ := natDec_head i.natAbs
    simp only [intChars, hneg, ite_false]
    rw [readIntChars.eq_def]
    split
    · rename_i cs2 hbad
      rw [heq] at hbad
      simp only [List.cons_append, List.cons.injEq] at hbad
      exact absurd hbad.1 (hexChar_ne_dash d hd)
    · rw [readDecAcc_natDec, readDecAcc_stop _ _ h]
      simp only [Nat.zero_mul, Nat.zero_add, Prod.mk.injEq]
      constructor
      · omega
      · trivial

/-- Rebuilding a character from its scalar value recovers the character. -/
theorem charOfNat_toNat (c : Char) : Char.ofNat c.toNat = c := by
  have hv : c.toNat.isValidChar := c.valid
  apply Char.eq_of_val_eq
  rw [Char.ofNat, dif_pos hv]
  apply UInt32.ext
  rfl

/-- JSON escaping of one character, serde style (what pydantic emits): the
double quote and backslash get a backslash escape, the five named control
characters their short escapes, the remaining control characters a \u00XX
escape, and everything else passes through. -/
def escChar (c : Char) : List Char :=
  if c = '"' then ['\\', '"']
  else if c = '\\' then ['\\', '\\']
  else if c = '\x08' then ['\\', 'b']
  else if c = '\t' then ['\\', 't']
  else if c = '\n' then ['\\', 'n']
  else if c = '\x0c' then ['\\', 'f']
  else if c = '\r' then ['\\', 'r']
  else if c.toNat < 32 then
    ['\\', 'u', '0', '0', hexChar (c.toNat / 16), hexChar (c.toNat % 16)]
  else [c]

/-- JSON escaping of a character list. -/
def escList : List Char → List Char
  | [] => []
  | c :: cs => escChar c ++ escList cs

/-- The character named by a short escape. -/
def unescMap (e : Char) : Option Char :=
  if e = '"' then some '"'
  else if e = '\\' then some '\\'
  else if e = 'b' then some '\x08'
  else if e = 't' then some '\t'
  else if e = 'n' then some '\n'
  else if e = 'f' then some '\x0c'
  else if e = 'r' then some '\r'
  else none

/-- Read the body of a JSON string up to its closing quote, undoing the
escapes; returns the decoded characters and the stream after the quote. -/
def readStrChars : List Char → Option (List Char × List Char)
  | [] => none
  | c :: cs =>
    if c = '"' then some ([], cs)
    else if c = '\\' then
      match cs with
      | [] => none
      | e :: cs2 =>
        if e = 'u' then
          match cs2 with
          | h1 :: h2 :: h3 :: h4 :: cs3 =>
            match hexVal h1, hexVal h2, hexVal h3, hexVal h4 with
            | some d1, some d2, some d3, some d4 =>
              (readStrChars cs3).map (fun pr =>
                (Char.ofNat (((d1 * 16 + d2) * 16 + d3) * 16 + d4) :: pr.1,
                 pr.2))
            | _, _, _, _ => none
          | _ => none
        else
          match unescMap e with
          | some u => (readStrChars cs2).map (fun pr => (u :: pr.1, pr.2))
          | none => none
    else (readStrChars cs).map (fun pr => (c :: pr.1, pr.2))

theorem readStrChars_quote (rem : List Char) :
    readStrChars ('"' :: rem) = some ([], rem) := by
  rw [readStrChars.eq_def]
  simp

theorem readStrChars_plain (c : Char) (rem : List Char) (h1 : ¬ c = '"')
    (h2 : ¬ c = '\\') :
    readStrChars (c :: rem) =
      (readStrChars rem).map (fun pr => (c :: pr.1, pr.2)) := by
  rw [readStrChars.eq_def]
  simp [h1, h2]

theorem readStrChars_esc (e u : Char) (rem : List Char)
    (he : unescMap e = some u) (hu : ¬ e = 'u') :
    readStrChars ('\\' :: e :: rem) =
      (readStrChars rem).map (fun pr => (u :: pr.1, pr.2)) := by
  rw [readStrChars.eq_def]
  simp [hu, he]

theorem readStrChars_uesc (a1 a2 a3 a4 : Char) (d1 d2 d3 d4 : Nat)
    (rem : List Char) (hv1 : hexVal a1 = some d1) (hv2 : hexVal a2 = some d2)
    (hv3 : hexVal a3 = some d3) (hv4 : hexVal a4 = some d4) :
    readStrChars ('\\' :: 'u' :: a1 :: a2 :: a3 :: a4 :: rem) =
      (readStrChars rem).map (fun pr =>
        (Char.ofNat (((d1 * 16 + d2) * 16 + d3) * 16 + d4) :: pr.1, pr.2)) := by
  rw [readStrChars.eq_def]
  simp [hv1, hv2, hv3, hv4]

theorem readStrChars_escList (s : List Char) (rest : List Char) :
    readStrChars (escList s ++ '"' :: rest) = some (s, rest) := by
  induction s with
  | nil =>
    simp only [escList, List.nil_append]
    exact readStrChars_quote rest
  | cons c cs ih =>
    show readStrChars (escChar c ++ escList cs ++ '"' :: rest) = _
    by_cases h1 : c = '"'
    · subst h1
      rw [show escChar '"' = ['\\', '"'] from rfl]
      simp only [List.cons_append, List.nil_append, List.append_assoc]
      rw [readStrChars_esc '"' '"' _ (by decide) (by decide)]
      simp [ih]
    · by_cases h2 : c = '\\'
      · subst h2
        rw [show escChar '\\' = ['\\', '\\'] from rfl]
        simp only [List.cons_append, List.nil_append, List.append_assoc]
        rw [readStrChars_esc '\\' '\\' _ (by decide) (by decide)]
        simp [ih]
      · by_cases h3 : c = '\x08'
        · subst h3
          rw [show escChar '\x08' = ['\\', 'b'] from rfl]
          simp only [List.cons_append, List.nil_append, List.append_assoc]
          rw [readStrChars_esc 'b' '\x08' _ (by decide) (by decide)]
          simp [ih]
        · by_cases h4 : c = '\t'
          · subst h4
            rw [show escChar '\t' = ['\\', 't'] from rfl]
            simp only [List.cons_append, List.nil_append, List.append_assoc]
            rw [readStrChars_esc 't' '\t' _ (by decide) (by decide)]
            simp [ih]
          · by_cases h5 : c = '\n'
            · subst h5
              rw [show escChar '\n' = ['\\', 'n'] from rfl]
              simp only [List.cons_append, List.nil_append,
                List.append_assoc]
              rw [readStrChars_esc 'n' '\n' _ (by decide) (by decide)]
              simp [ih]
            · by_cases h6 : c = '\x0c'
              · subst h6
                rw [show escChar '\x0c' = ['\\', 'f'] from rfl]
                simp only [List.cons_append, List.nil_append,
                  List.append_assoc]
                rw [readStrChars_esc 'f' '\x0c' _ (by decide) (by decide)]
                simp [ih]
              · by_cases h7 : c = '\r'
                · subst h7
                  rw [show escChar '\r' = ['\\', 'r'] from rfl]
                  simp only [List.cons_append, List.nil_append,
                    List.append_assoc]
                  rw [readStrChars_esc 'r' '\r' _ (by decide) (by decide)]
                  simp [ih]
                · by_cases h8 : c.toNat < 32
                  · have hhi : c.toNat / 16 < 16 := by omega
                    have hlo : c.toNat % 16 < 16 := Nat.mod_lt _ (by omega)
                    rw [show escChar c =
                      ['\\', 'u', '0', '0', hexChar (c.toNat / 16),
                        hexChar (c.toNat % 16)] by
                      simp [escChar, h1, h2, h3, h4, h5, h6, h7, h8]]
                    simp only [List.cons_append, List.nil_append,
                      List.append_assoc]
                    rw [readStrChars_uesc '0' '0' (hexChar (c.toNat / 16))
                      (hexChar (c.toNat % 16)) 0 0 (c.toNat / 16)
                      (c.toNat % 16) _ rfl rfl (hexVal_hexChar _ hhi)
                      (hexVal_hexChar _ hlo)]
                    simp only [ih, Option.map_some]
                    have hval : ((0 * 16 + 0) * 16 + c.toNat / 16) * 16 +
                        c.toNat % 16 = c.toNat := by omega
                    rw [hval, charOfNat_toNat]
                    rfl
                  · rw [show escChar c = [c] by
                      simp [escChar, h1, h2, h3, h4, h5, h6, h7, h8]]
                    simp only [List.cons_append, List.nil_append,
                      List.append_assoc]
                    rw [readStrChars_plain c _ h1 h2]
                    simp [ih]

/-- A serialized JSON string: quote, escaped body, quote. -/
def jsonStr (s : String) : List Char :=
  '"' :: (escList s.data ++ ['"'])

/-- Read a serialized JSON string. -/
def readJsonStr (cs : List Char) : Option (String × List Char) :=
  match cs with
  | '"' :: cs2 => (readStrChars cs2).map (fun pr => (String.mk pr.1, pr.2))
  | _ => none

theorem stringMk_data (s : String) : String.mk s.data = s := by
  cases s
  rfl

theorem readJsonStr_jsonStr (s : String) (rest : List Char) :
    readJsonStr (jsonStr s ++ rest) = some (s, rest) := by
  simp only [jsonStr, List.cons_append, List.append_assoc,
    List.singleton_append, readJsonStr]
  rw [readStrChars_escList]
  simp [stringMk_data]

/-- The wire value string of a PacketType (StrEnum values). -/
def PacketType.str : PacketType → String
  | PacketType.REGISTER => "REGISTER"
  | PacketType.SHUTDOWN => "SHUTDOWN"
  | PacketType.RUN => "RUN"
  | PacketType.CANCEL => "CANCEL"
  | PacketType.RESULT => "RESULT"

/-- Recover a PacketType from its wire value. -/
def PacketType.ofStr (s : String) : Option PacketType :=
  if s = "REGISTER" then some PacketType.REGISTER
  else if s = "SHUTDOWN" then some PacketType.SHUTDOWN
  else if s = "RUN" then some PacketType.RUN
  else if s = "CANCEL" then some PacketType.CANCEL
  else if s = "RESULT" then some PacketType.RESULT
  else none

theorem packetTypeOfStr_str (pt : PacketType) :
    PacketType.ofStr pt.str = some pt := by
  cases pt <;> rfl

/-- The wire value string of a ResultCode (StrEnum values). -/
def ResultCode.str : ResultCode → String
  | ResultCode.OK => "OK"
  | ResultCode.BAD_PACKET => "BAD_PACKET"
  | ResultCode.UNSUPPORTED_PACKET_TYPE => "UNSUPPORTED_PACKET_TYPE"
  | ResultCode.NO_CAPACITY => "NO_CAPACITY"
  | ResultCode.NOT_FOR_US => "NOT_FOR_US"
  | ResultCode.COOKIE_NOT_FOUND => "COOKIE_NOT_FOUND"
  | ResultCode.COOKIE_COLLISION => "COOKIE_COLLISION"
  | ResultCode.WORKER_WENT_AWAY => "WORKER_WENT_AWAY"
  | ResultCode.BROKER_WENT_AWAY => "BROKER_WENT_AWAY"
  | ResultCode.CANCELLED => "CANCELLED"
  | ResultCode.EXCEPTION => "EXCEPTION"

/-- Recover a ResultCode from its wire value. -/
def ResultCode.ofStr (s : String) : Option ResultCode :=
  if s = "OK" then some ResultCode.OK
  else if s = "BAD_PACKET" then some ResultCode.BAD_PACKET
  else if s = "UNSUPPORTED_PACKET_TYPE" then
    some ResultCode.UNSUPPORTED_PACKET_TYPE
  else if s = "NO_CAPACITY" then some ResultCode.NO_CAPACITY
  else if s = "NOT_FOR_US" then some ResultCode.NOT_FOR_US
  else if s = "COOKIE_NOT_FOUND" then some ResultCode.COOKIE_NOT_FOUND
  else if s = "COOKIE_COLLISION" then some ResultCode.COOKIE_COLLISION
  else if s = "WORKER_WENT_AWAY" then some ResultCode.WORKER_WENT_AWAY
  else if s = "BROKER_WENT_AWAY" then some ResultCode.BROKER_WENT_AWAY
  else if s = "CANCELLED" then some ResultCode.CANCELLED
  else if s = "EXCEPTION" then some ResultCode.EXCEPTION
  else none

theorem resultCodeOfStr_str (r : ResultCode) :
    ResultCode.ofStr r.str = some r := by
  cases r <;> rfl

/-- The JSON null literal. -/
def jsonNull : List Char := ['n', 'u', 'l', 'l']

/-- Expect an exact literal prefix and return the stream after it. -/
def dropLit : List Char → List Char → Option (List Char)
  | [], cs => some cs
  | _ :: _, [] => none
  | p :: ps, c :: cs => if c = p then dropLit ps cs else none

theorem dropLit_append :
    ∀ (lit rest : List Char), dropLit lit (lit ++ rest) = some rest := by
  intro lit
  induction lit with
  | nil => intro rest; rfl
  | cons p ps ih =>
    intro rest
    simp [dropLit, ih]

/-- Serialized optional string: null or a JSON string. -/
def jsonOptStr : Option String → List Char
  | none => jsonNull
  | some s => jsonStr s

/-- Read an optional string. -/
def readOptStr (cs : List Char) : Option (Option String × List Char) :=
  match cs with
  | 'n' :: cs2 => (dropLit ['u', 'l', 'l'] cs2).map (fun r => (none, r))
  | _ => (readJsonStr cs).map (fun pr => (some pr.1, pr.2))

theorem readOptStr_jsonOptStr (v : Option String) (rest : List Char) :
    readOptStr (jsonOptStr v ++ rest) = some (v, rest) := by
  cases v with
  | none =>
    simp only [jsonOptStr, jsonNull, List.cons_append, List.nil_append,
      readOptStr]
    rw [show ('u' :: 'l' :: 'l' :: rest : List Char) =
      ['u', 'l', 'l'] ++ rest from rfl, dropLit_append]
    rfl
  | some s =>
    rw [readOptStr.eq_def]
    split
    · rename_i cs2 hbad
      simp only [jsonOptStr, jsonStr, List.cons_append,
        List.cons.injEq] at hbad
      exact absurd hbad.1 (by decide)
    · simp only [jsonOptStr]
      rw [readJsonStr_jsonStr]
      rfl

/-- Serialized optional UUID cookie: null or the quoted dashed-hex form. -/
def jsonOptUuid : Option Nat → List Char
  | none => jsonNull
  | some n => '"' :: (uuidChars n ++ ['"'])

/-- Read an optional UUID cookie. -/
def readOptUuid (cs : List Char) : Option (Option Nat × List Char) :=
  match cs with
  | 'n' :: cs2 => (dropLit ['u', 'l', 'l'] cs2).map (fun r => (none, r))
  | '"' :: cs2 =>
    match readUuid cs2 with
    | some (v, '"' :: rest) => some (some v, rest)
    | _ => none
  | _ => none

theorem readOptUuid_jsonOptUuid (v : Option Nat) (rest : List Char)
    (hv : ∀ k, v = some k → k < 16 ^ 32) :
    readOptUuid (jsonOptUuid v ++ rest) = some (v, rest) := by
  cases v with
  | none =>
    simp only [jsonOptUuid, jsonNull, List.cons_append, List.nil_append,
      readOptUuid]
    rw [show ('u' :: 'l' :: 'l' :: rest : List Char) =
      ['u', 'l', 'l'] ++ rest from rfl, dropLit_append]
    rfl
  | some n =>
    have hn : n < 16 ^ 32 := hv n rfl
    simp only [jsonOptUuid, List.cons_append, List.append_assoc,
      List.singleton_append, List.nil_append, readOptUuid]
    rw [readUuid_uuidChars n ('"' :: rest) hn]
    rfl

/-- The characters hexChar yields for decimal digits are never the letter n
(this keeps a serialized number from being mistaken for null). -/
theorem hexChar_ne_n : ∀ d, d < 10 → hexChar d ≠ 'n' := by decide

/-- Serialized optional int: null or its decimal rendering. -/
def jsonOptInt : Option Int → List Char
  | none => jsonNull
  | some i => intChars i

/-- Read an optional int (greedy digits; the canonical form always has at
least one digit). -/
def readOptInt (cs : List Char) : Option (Option Int × List Char) :=
  match cs with
  | 'n' :: cs2 => (dropLit ['u', 'l', 'l'] cs2).map (fun r => (none, r))
  | _ => some (some (readIntChars cs).1, (readIntChars cs).2)

theorem readOptInt_jsonOptInt (v : Option Int) (rest : List Char)
    (h : headIsDigit rest = false) :
    readOptInt (jsonOptInt v ++ rest) = some (v, rest) := by
  cases v with
  | none =>
    simp only [jsonOptInt, jsonNull, List.cons_append, List.nil_append,
      readOptInt]
    rw [show ('u' :: 'l' :: 'l' :: rest : List Char) =
      ['u', 'l', 'l'] ++ rest from rfl, dropLit_append]
    rfl
  | some i =>
    rw [readOptInt.eq_def]
    split
    · rename_i cs2 hbad
      exfalso
      by_cases hneg : i < 0
      · simp only [jsonOptInt, intChars, hneg, ite_true, List.cons_append,
          List.cons.injEq] at hbad
        exact absurd hbad.1 (by decide)
      · obtain ⟨d, ds, hd, heq⟩ := natDec_head i.natAbs
        simp only [jsonOptInt, intChars, hneg, ite_false, heq,
          List.cons_append, List.cons.injEq] at hbad
        exact absurd hbad.1 (hexChar_ne_n d hd)
    · simp only [jsonOptInt]
      rw [readIntChars_intChars i rest h]

/-- Serialized optional ResultCode: null or its value string. -/
def jsonOptRc : Option ResultCode → List Char
  | none => jsonNull
  | some r => jsonStr r.str

/-- Read an optional ResultCode. -/
def readOptRc (cs : List Char) : Option (Option ResultCode × List Char) :=
  match cs with
  | 'n' :: cs2 => (dropLit ['u', 'l', 'l'] cs2).map (fun r => (none, r))
  | _ =>
    match readJsonStr cs with
    | some (s, rest) =>
      match ResultCode.ofStr s with
      | some r => some (some r, rest)
      | none => none
    | none => none

theorem readOptRc_jsonOptRc (v : Option ResultCode) (rest : List Char) :
    readOptRc (jsonOptRc v ++ rest) = some (v, rest) := by
  cases v with
  | none =>
    simp only [jsonOptRc, jsonNull, List.cons_append, List.nil_append,
      readOptRc]
    rw [show ('u' :: 'l' :: 'l' :: rest : List Char) =
      ['u', 'l', 'l'] ++ rest from rfl, dropLit_append]
    rfl
  | some r =>
    rw [readOptRc.eq_def]
    split
    · rename_i cs2 hbad
      simp only [jsonOptRc, jsonStr, List.cons_append,
        List.cons.injEq] at hbad
      exact absurd hbad.1 (by decide)
    · simp only [jsonOptRc]
      rw [readJsonStr_jsonStr]
      simp [resultCodeOfStr_str]

/-- Serialized JSON array body of strings, comma separated. -/
def jsonStrList : List String → List Char
  | [] => []
  | [s] => jsonStr s
  | s :: rest => jsonStr s ++ ',' :: jsonStrList rest

/-- Serialized JSON array of strings. -/
def jsonArr (xs : List String) : List Char :=
  '[' :: (jsonStrList xs ++ [']'])

/-- Serialized optional array of strings: null or the array. -/
def jsonOptArr : Option (List String) → List Char
  | none => jsonNull
  | some xs => jsonArr xs

/-- Read the comma-separated items of a nonempty string array up to the
closing bracket; fuel bounds the number of items. -/
def readStrList (fuel : Nat) (cs : List Char) :
    Option (List String × List Char) :=
  match fuel with
  | 0 => none
  | Nat.succ f =>
    match readJsonStr cs with
    | none => none
    | some (s, rest) =>
      match rest with
      | ',' :: rest2 => (readStrList f rest2).map (fun pr => (s :: pr.1, pr.2))
      | ']' :: rest2 => some ([s], rest2)
      | _ => none

/-- Read a JSON array of strings. -/
def readJsonArr (cs : List Char) : Option (List String × List Char) :=
  match cs with
  | '[' :: ']' :: rest => some ([], rest)
  | '[' :: cs2 => readStrList (cs2.length + 1) cs2
  | _ => none

/-- Read an optional JSON array of strings. -/
def readOptArr (cs : List Char) :
    Option (Option (List String) × List Char) :=
  match cs with
  | 'n' :: cs2 => (dropLit ['u', 'l', 'l'] cs2).map (fun r => (none, r))
  | _ => (readJsonArr cs).map (fun pr => (some pr.1, pr.2))

theorem jsonStrList_length_ge :
    ∀ xs : List String, xs.length ≤ (jsonStrList xs).length := by
  intro xs
  induction xs with
  | nil => simp [jsonStrList]
  | cons s tail ih =>
    cases tail with
    | nil => simp [jsonStrList, jsonStr]
    | cons t ts =>
      rw [show jsonStrList (s :: t :: ts) =
        jsonStr s ++ ',' :: jsonStrList (t :: ts) from rfl]
      simp only [List.length_cons, List.length_append, jsonStr] at *
      omega

theorem readStrList_jsonStrList :
    ∀ (xs : List String) (fuel : Nat) (rest : List Char), xs ≠ [] →
      xs.length ≤ fuel →
      readStrList fuel (jsonStrList xs ++ ']' :: rest) = some (xs, rest) := by
  intro xs
  induction xs with
  | nil => intro fuel rest hne _; exact absurd rfl hne
  | cons s tail ih =>
    intro fuel rest _ hlen
    cases fuel with
    | zero => simp at hlen
    | succ f =>
      cases tail with
      | nil =>
        rw [show jsonStrList [s] = jsonStr s from rfl]
        simp only [readStrList]
        rw [readJsonStr_jsonStr]
        rfl
      | cons t ts =>
        rw [show jsonStrList (s :: t :: ts) =
          jsonStr s ++ ',' :: jsonStrList (t :: ts) from rfl]
        simp only [List.append_assoc, List.cons_append, readStrList]
        rw [readJsonStr_jsonStr]
        simp only []
        rw [ih f rest (by simp)
          (by simp only [List.length_cons] at hlen ⊢; omega)]
        rfl

theorem jsonStrList_cons_head (y : String) (ys : List String) :
    ∃ tl, jsonStrList (y :: ys) = '"' :: tl := by
  cases ys with
  | nil => exact ⟨escList y.data ++ ['"'], rfl⟩
  | cons t ts =>
    exact ⟨(escList y.data ++ ['"']) ++ ',' :: jsonStrList (t :: ts), by
      rw [show jsonStrList (y :: t :: ts) =
        jsonStr y ++ ',' :: jsonStrList (t :: ts) from rfl]
      simp [jsonStr]⟩

theorem readJsonArr_jsonArr (xs : List String) (rest : List Char) :
    readJsonArr (jsonArr xs ++ rest) = some (xs, rest) := by
  cases xs with
  | nil => rfl
  | cons y ys =>
    obtain ⟨tl, htl⟩ := jsonStrList_cons_head y ys
    have hshape : jsonArr (y :: ys) ++ rest =
        '[' :: ('"' :: (tl ++ ']' :: rest)) := by
      simp [jsonArr, htl]
    rw [hshape, readJsonArr.eq_def]
    split
    · rename_i r hbad
      simp at hbad
    · rename_i cs2 heq
      simp only [List.cons.injEq] at heq
      rw [← heq.2]
      have hback : ('"' : Char) :: (tl ++ ']' :: rest) =
          jsonStrList (y :: ys) ++ ']' :: rest := by
        rw [htl]
        simp
      rw [hback]
      apply readStrList_jsonStrList (y :: ys) _ rest (by simp)
      have h1 : (y :: ys).length ≤ (jsonStrList (y :: ys)).length :=
        jsonStrList_length_ge (y :: ys)
      have h3 : (jsonStrList (y :: ys) ++ ']' :: rest).length =
          (jsonStrList (y :: ys)).length + 1 + rest.length := by
        simp only [List.length_append, List.length_cons]
        omega
      omega
    · rename_i hb1 hb2
      exact absurd rfl (hb2 ('"' :: (tl ++ ']' :: rest)))

theorem readOptArr_jsonOptArr (v : Option (List String)) (rest : List Char) :
    readOptArr (jsonOptArr v ++ rest) = some (v, rest) := by
  cases v with
  | none =>
    simp only [jsonOptArr, jsonNull, List.cons_append, List.nil_append,
      readOptArr]
    rw [show ('u' :: 'l' :: 'l' :: rest : List Char) =
      ['u', 'l', 'l'] ++ rest from rfl, dropLit_append]
    rfl
  | some xs =>
    rw [readOptArr.eq_def]
    split
    · rename_i cs2 hbad
      simp only [jsonOptArr, jsonArr, List.cons_append,
        List.cons.injEq] at hbad
      exact absurd hbad.1 (by decide)
    · simp only [jsonOptArr]
      rw [readJsonArr_jsonArr]
      rfl

/-- A serialized JSON object key followed by its colon. -/
def keyChars (k : String) : List Char :=
  '"' :: (k.data ++ ['"', ':'])

/-- The nine fields of the wire packet in declaration order, each paired
with its serialized JSON value.  The names are exactly the SocketPacket
field names of protocol.py. -/
def packetFields (p : SocketPacket) : List (String × List Char) :=
  [("packet_type", jsonStr p.packet_type.str),
   ("cookie", jsonOptUuid p.cookie),
   ("capacity", jsonOptInt p.capacity),
   ("pipeline", jsonOptStr p.pipeline),
   ("variables", jsonOptStr p.variables),
   ("rc", jsonOptRc p.rc),
   ("error", jsonOptStr p.error),
   ("stacktrace", jsonOptArr p.stacktrace),
   ("result", jsonOptStr p.result)]

/-- Comma-separated key:value serialization of the fields. -/
def fieldsChars : List (String × List Char) → List Char
  | [] => []
  | [f] => keyChars f.1 ++ f.2
  | f :: rest => keyChars f.1 ++ f.2 ++ ',' :: fieldsChars rest

/-- Modelled from the spec: the JSON object serialization of a packet, what
pydantic's model_dump_json emits (library code not under src/), per the wire
format of spec section 6. -/
def packetJson (p : SocketPacket) : List Char :=
  '\x7b' :: (fieldsChars (packetFields p) ++ ['\x7d'])

/-- Modelled from the spec: the JSON validation of pydantic's
model_validate_json (library code not under src/), restricted to the
canonical field order the serializer emits. -/
def parsePacketJson (cs : List Char) : Option (SocketPacket × List Char) :=
  match dropLit ('\x7b' :: keyChars "packet_type") cs with
  | none => none
  | some cs1 =>
  match readJsonStr cs1 with
  | none => none
  | some (pts, cs2) =>
  match PacketType.ofStr pts with
  | none => none
  | some pt =>
  match dropLit (',' :: keyChars "cookie") cs2 with
  | none => none
  | some cs3 =>
  match readOptUuid cs3 with
  | none => none
  | some (ck, cs4) =>
  match dropLit (',' :: keyChars "capacity") cs4 with
  | none => none
  | some cs5 =>
  match readOptInt cs5 with
  | none => none
  | some (cap, cs6) =>
  match dropLit (',' :: keyChars "pipeline") cs6 with
  | none => none
  | some cs7 =>
  match readOptStr cs7 with
  | none => none
  | some (pl, cs8) =>
  match dropLit (',' :: keyChars "variables") cs8 with
  | none => none
  | some cs9 =>
  match readOptStr cs9 with
  | none => none
  | some (vars, cs10) =>
  match dropLit (',' :: keyChars "rc") cs10 with
  | none => none
  | some cs11 =>
  match readOptRc cs11 with
  | none => none
  | some (r, cs12) =>
  match dropLit (',' :: keyChars "error") cs12 with
  | none => none
  | some cs13 =>
  match readOptStr cs13 with
  | none => none
  | some (err, cs14) =>
  match dropLit (',' :: keyChars "stacktrace") cs14 with
  | none => none
  | some cs15 =>
  match readOptArr cs15 with
  | none => none
  | some (st, cs16) =>
  match dropLit (',' :: keyChars "result") cs16 with
  | none => none
  | some cs17 =>
  match readOptStr cs17 with
  | none => none
  | some (res, cs18) =>
  match dropLit ['\x7d'] cs18 with
  | none => none
  | some cs19 =>
    some (⟨pt, ck, cap, pl, vars, r, err, st, res⟩, cs19)

theorem dropLit_single (c : Char) (rest : List Char) :
    dropLit [c] (c :: rest) = some rest := by
  simp [dropLit]

theorem readOptInt_before_comma (v : Option Int) (kc tail : List Char) :
    readOptInt (jsonOptInt v ++ ((',' :: kc) ++ tail)) =
      some (v, (',' :: kc) ++ tail) :=
  readOptInt_jsonOptInt v ((',' :: kc) ++ tail) rfl

theorem parsePacketJson_packetJson (p : SocketPacket) (rest : List Char)
    (hcookie : ∀ k, p.cookie = some k → k < 16 ^ 32) :
    parsePacketJson (packetJson p ++ rest) = some (p, rest) := by
  rcases p with ⟨pt, ck, cap, pl, vars, r, err, st, res⟩
  simp only [] at hcookie
  have hshape : packetJson ⟨pt, ck, cap, pl, vars, r, err, st, res⟩ ++ rest =
      ('\x7b' :: keyChars "packet_type") ++
      (jsonStr pt.str ++
      ((',' :: keyChars "cookie") ++
      (jsonOptUuid ck ++
      ((',' :: keyChars "capacity") ++
      (jsonOptInt cap ++
      ((',' :: keyChars "pipeline") ++
      (jsonOptStr pl ++
      ((',' :: keyChars "variables") ++
      (jsonOptStr vars ++
      ((',' :: keyChars "rc") ++
      (jsonOptRc r ++
      ((',' :: keyChars "error") ++
      (jsonOptStr err ++
      ((',' :: keyChars "stacktrace") ++
      (jsonOptArr st ++
      ((',' :: keyChars "result") ++
      (jsonOptStr res ++
      ('\x7d' :: rest)))))))))))))))))) := by
    simp [packetJson, packetFields, fieldsChars, keyChars,
      List.append_assoc]
  rw [hshape]
  have huuid : readOptUuid (jsonOptUuid ck ++
      ((',' :: keyChars "capacity") ++
      (jsonOptInt cap ++
      ((',' :: keyChars "pipeline") ++
      (jsonOptStr pl ++
      ((',' :: keyChars "variables") ++
      (jsonOptStr vars ++
      ((',' :: keyChars "rc") ++
      (jsonOptRc r ++
      ((',' :: keyChars "error") ++
      (jsonOptStr err ++
      ((',' :: keyChars "stacktrace") ++
      (jsonOptArr st ++
      ((',' :: keyChars "result") ++
      (jsonOptStr res ++
      ('\x7d' :: rest)))))))))))))))) = some (ck, _) :=
    readOptUuid_jsonOptUuid ck _ hcookie
  simp only [parsePacketJson, dropLit_append, readJsonStr_jsonStr,
    packetTypeOfStr_str, huuid, readOptInt_before_comma,
    readOptStr_jsonOptStr, readOptRc_jsonOptRc, readOptArr_jsonOptArr,
    dropLit_single]

/-- UTF-8 encoding of one character as its byte values. -/
def utf8Char (c : Char) : List Nat :=
  if c.toNat < 128 then [c.toNat]
  else if c.toNat < 2048 then
    [192 + c.toNat / 64, 128 + c.toNat % 64]
  else if c.toNat < 65536 then
    [224 + c.toNat / 4096, 128 + c.toNat / 64 % 64, 128 + c.toNat % 64]
  else
    [240 + c.toNat / 262144, 128 + c.toNat / 4096 % 64,
     128 + c.toNat / 64 % 64, 128 + c.toNat % 64]

/-- UTF-8 encoding of a character list (the bytes of str.encode). -/
def utf8List : List Char → List Nat
  | [] => []
  | c :: cs => utf8Char c ++ utf8List cs

/-- Decode one UTF-8 sequence from the head of a byte list, returning the
character and the remaining bytes. -/
def decodeOne (bs : List Nat) : Option (Char × List Nat) :=
  match bs with
  | [] => none
  | b :: rest =>
    if b < 128 then some (Char.ofNat b, rest)
    else if b < 224 then
      match rest with
      | b1 :: rest2 =>
        if 192 ≤ b ∧ 128 ≤ b1 ∧ b1 < 192 then
          some (Char.ofNat ((b - 192) * 64 + (b1 - 128)), rest2)
        else none
      | [] => none
    else if b < 240 then
      match rest with
      | b1 :: b2 :: rest3 =>
        if (128 ≤ b1 ∧ b1 < 192) ∧ (128 ≤ b2 ∧ b2 < 192) then
          some (Char.ofNat ((b - 224) * 4096 + (b1 - 128) * 64 + (b2 - 128)),
            rest3)
        else none
      | _ => none
    else
      match rest with
      | b1 :: b2 :: b3 :: rest4 =>
        if (128 ≤ b1 ∧ b1 < 192) ∧ (128 ≤ b2 ∧ b2 < 192) ∧
            (128 ≤ b3 ∧ b3 < 192) then
          some (Char.ofNat ((b - 240) * 262144 + (b1 - 128) * 4096 +
            (b2 - 128) * 64 + (b3 - 128)), rest4)
        else none
      | _ => none

/-- Decode a whole byte list, one UTF-8 sequence at a time; the fuel bounds
the number of characters (each sequence consumes at least one byte). -/
def utf8DecAux : Nat → List Nat → Option (List Char)
  | _, [] => some []
  | 0, _ :: _ => none
  | Nat.succ fuel, b :: bs =>
    match decodeOne (b :: bs) with
    | none => none
    | some (c, rest) => (utf8DecAux fuel rest).map (fun cs => c :: cs)

/-- UTF-8 decoding of a byte list back into characters (bytes.decode). -/
def utf8Dec (bs : List Nat) : Option (List Char) :=
  utf8DecAux bs.length bs

theorem char_toNat_lt (c : Char) : c.toNat < 1114112 := by
  have he : c.toNat = c.val.toNat := rfl
  rcases c.valid with h | h
  · omega
  · omega

theorem decodeOne_utf8Char (c : Char) (bs : List Nat) :
    decodeOne (utf8Char c ++ bs) = some (c, bs) := by
  have hmax := char_toNat_lt c
  by_cases h1 : c.toNat < 128
  · rw [show utf8Char c = [c.toNat] by simp [utf8Char, h1]]
    rw [List.singleton_append]
    simp only [decodeOne]
    rw [if_pos h1, charOfNat_toNat]
  · by_cases h2 : c.toNat < 2048
    · rw [show utf8Char c = [192 + c.toNat / 64, 128 + c.toNat % 64] by
        simp [utf8Char, h1, h2]]
      rw [List.cons_append, List.cons_append, List.nil_append]
      simp only [decodeOne]
      rw [if_neg (by omega), if_pos (by omega)]
      rw [if_pos (by omega)]
      have hv : (192 + c.toNat / 64 - 192) * 64 + (128 + c.toNat % 64 - 128)
          = c.toNat := by omega
      rw [hv, charOfNat_toNat]
    · by_cases h3 : c.toNat < 65536
      · rw [show utf8Char c = [224 + c.toNat / 4096, 128 + c.toNat / 64 % 64,
          128 + c.toNat % 64] by simp [utf8Char, h1, h2, h3]]
        rw [List.cons_append, List.cons_append, List.cons_append,
          List.nil_append]
        simp only [decodeOne]
        rw [if_neg (by omega), if_neg (by omega), if_pos (by omega)]
        rw [if_pos (by omega)]
        have hv : (224 + c.toNat / 4096 - 224) * 4096 +
            (128 + c.toNat / 64 % 64 - 128) * 64 +
            (128 + c.toNat % 64 - 128) = c.toNat := by omega
        rw [hv, charOfNat_toNat]
      · rw [show utf8Char c = [240 + c.toNat / 262144,
          128 + c.toNat / 4096 % 64, 128 + c.toNat / 64 % 64,
          128 + c.toNat % 64] by simp [utf8Char, h1, h2, h3]]
        rw [List.cons_append, List.cons_append, List.cons_append,
          List.cons_append, List.nil_append]
        simp only [decodeOne]
        rw [if_neg (by omega), if_neg (by omega), if_neg (by omega)]
        rw [if_pos (by omega)]
        have hv : (240 + c.toNat / 262144 - 240) * 262144 +
            (128 + c.toNat / 4096 % 64 - 128) * 4096 +
            (128 + c.toNat / 64 % 64 - 128) * 64 +
            (128 + c.toNat % 64 - 128) = c.toNat := by omega
        rw [hv, charOfNat_toNat]

theorem utf8Char_length_pos (c : Char) : 0 < (utf8Char c).length := by
  unfold utf8Char
  split
  · simp
  · split
    · simp
    · split <;> simp

theorem utf8Char_cons (c : Char) (y : List Nat) :
    ∃ b tail, utf8Char c ++ y = b :: tail := by
  cases hc : utf8Char c with
  | nil =>
    have := utf8Char_length_pos c
    rw [hc] at this
    simp at this
  | cons b r => exact ⟨b, r ++ y, by simp⟩

theorem utf8DecAux_utf8List :
    ∀ (fuel : Nat) (s : List Char), (utf8List s).length ≤ fuel →
      utf8DecAux fuel (utf8List s) = some s := by
  intro fuel
  induction fuel with
  | zero =>
    intro s hle
    cases s with
    | nil => rfl
    | cons c cs =>
      exfalso
      have h1 := utf8Char_length_pos c
      rw [show utf8List (c :: cs) = utf8Char c ++ utf8List cs from rfl] at hle
      simp only [List.length_append] at hle
      omega
  | succ f ih =>
    intro s hle
    cases s with
    | nil => rfl
    | cons c cs =>
      rw [show utf8List (c :: cs) = utf8Char c ++ utf8List cs from rfl]
      obtain ⟨b, tail, hbt⟩ := utf8Char_cons c (utf8List cs)
      rw [hbt]
      simp only [utf8DecAux]
      rw [← hbt, decodeOne_utf8Char]
      simp only []
      have hcs : (utf8List cs).length ≤ f := by
        have h1 := utf8Char_length_pos c
        rw [show utf8List (c :: cs) = utf8Char c ++ utf8List cs from rfl]
          at hle
        simp only [List.length_append] at hle
        omega
      rw [ih cs hcs]
      rfl

theorem utf8Dec_utf8List (s : List Char) :
    utf8Dec (utf8List s) = some s :=
  utf8DecAux_utf8List (utf8List s).length s (Nat.le_refl _)

/-- The 4-byte big-endian length prefix packed by struct.pack bang-I. -/
def be4 (n : Nat) : List Nat :=
  [n / 16777216 % 256, n / 65536 % 256, n / 256 % 256, n % 256]

/-- send_packet (protocol.py lines 135-171): serialize the packet to UTF-8
JSON bytes (model_dump_json then encode) and write the 4-byte big-endian
length prefix followed by those bytes. -/
def encodePacket (p : SocketPacket) : List Nat :=
  be4 (utf8List (packetJson p)).length ++ utf8List (packetJson p)

/-- receive_packet (protocol.py lines 96-132): read exactly 4 bytes, unpack
the big-endian length, read exactly that many payload bytes, decode the
UTF-8 and validate the JSON (model_validate_json requires the whole payload
to be one JSON document); every failure yields None.  The remainder of the
stream is returned alongside the packet. -/
def decodePacket (bs : List Nat) : Option (SocketPacket × List Nat) :=
  match bs with
  | b0 :: b1 :: b2 :: b3 :: rest =>
    if ((b0 * 256 + b1) * 256 + b2) * 256 + b3 ≤ rest.length then
      match utf8Dec (rest.take (((b0 * 256 + b1) * 256 + b2) * 256 + b3)) with
      | none => none
      | some chars =>
        match parsePacketJson chars with
        | some (p, []) =>
          some (p, rest.drop (((b0 * 256 + b1) * 256 + b2) * 256 + b3))
        | _ => none
    else none
  | _ => none

/-- Validity of a cookie value: a 128-bit UUID. -/
def cookieOk : Option Nat → Bool
  | none => true
  | some k => decide (k < 16 ^ 32)

/-- A valid packet: the serialized JSON fits the uint32 length prefix (or
struct.pack raises) and the cookie is a 128-bit value (uuid.UUID enforces
this). -/
def ValidPacket (p : SocketPacket) : Prop :=
  (utf8List (packetJson p)).length < 4294967296 ∧ cookieOk p.cookie = true

/-- C7: the frame codec round-trips: for every valid packet, receiving the
sent frame yields the packet back with the rest of the stream untouched, and
the frame begins with the 4-byte big-endian length of the UTF-8 JSON
serialization. -/
theorem c7_frame_roundtrip (p : SocketPacket) (rest : List Nat)
    (h : ValidPacket p) :
    decodePacket (encodePacket p ++ rest) = some (p, rest) ∧
    List.take 4 (encodePacket p) =
      be4 (utf8List (packetJson p)).length := by
  obtain ⟨hlen, hck⟩ := h
  have hcookie : ∀ k, p.cookie = some k → k < 16 ^ 32 := by
    intro k hk
    rw [hk] at hck
    simpa [cookieOk] using hck
  constructor
  · rw [show encodePacket p ++ rest =
      (utf8List (packetJson p)).length / 16777216 % 256 ::
      ((utf8List (packetJson p)).length / 65536 % 256 ::
      ((utf8List (packetJson p)).length / 256 % 256 ::
      ((utf8List (packetJson p)).length % 256 ::
      (utf8List (packetJson p) ++ rest)))) by
        simp [encodePacket, be4]]
    simp only [decodePacket]
    have hrec : (((utf8List (packetJson p)).length / 16777216 % 256 * 256 +
        (utf8List (packetJson p)).length / 65536 % 256) * 256 +
        (utf8List (packetJson p)).length / 256 % 256) * 256 +
        (utf8List (packetJson p)).length % 256 =
        (utf8List (packetJson p)).length := by omega
    rw [hrec]
    rw [if_pos (by simp)]
    rw [List.take_left, List.drop_left]
    rw [utf8Dec_utf8List]
    simp only []
    have hparse := parsePacketJson_packetJson p [] hcookie
    rw [List.append_nil] at hparse
    rw [hparse]
  · simp [encodePacket, be4]

/-- The concrete RUN packet used to witness the frame round-trip. -/
def c7Packet : SocketPacket :=
  { packet_type := PacketType.RUN, cookie := some 77, capacity := none,
    pipeline := some "pkg.a", «variables» := some "x", rc := none,
    error := none, stacktrace := none, result := none }

/-- Witness for C7 at a concrete RUN packet. -/
theorem c7_frame_roundtrip_witness :
    ValidPacket c7Packet ∧
    decodePacket (encodePacket c7Packet ++ []) = some (c7Packet, []) :=
  ⟨⟨by decide, by decide⟩,
   (c7_frame_roundtrip c7Packet [] ⟨by decide, by decide⟩).1⟩

/-- The field names of the wire packet record, in declaration order. -/
def socketPacketFieldNames : List String :=
  ["packet_type", "cookie", "capacity", "pipeline", "variables", "rc",
   "error", "stacktrace", "result"]

/-- C8, counterexample: the wire record has no field named workflow: the
serialized field names are packet_type, cookie, capacity, pipeline,
variables, rc, error, stacktrace, result, which is not the list the claim
asserts. -/
theorem c8_workflow_not_a_field :
    (packetFields (mkPacket PacketType.RUN)).map Prod.fst =
      socketPacketFieldNames ∧
    ¬ ("workflow" ∈ socketPacketFieldNames) ∧
    socketPacketFieldNames ≠
      ["packet_type", "cookie", "capacity", "workflow", "variables", "rc",
       "error", "stacktrace", "result"] := by
  refine ⟨rfl, by decide, by decide⟩

/-- C8 as amended: the wire record's stable field names carry the workflow
name under the field pipeline: every packet serializes with exactly those
nine keys in order, and the worker task manager reads the workflow to run
from the pipeline field (and the cookie from cookie, the variables from
variables) whenever a RUN spawns an engine task. -/
theorem c8_pipeline_carries_workflow :
    (∀ p : SocketPacket,
      (packetFields p).map Prod.fst = socketPacketFieldNames) ∧
    (∀ (s : TMState) (q : SocketPacket) (c : Nat) (w : String)
        (v : Option String),
      (processServerPacket s (some q)).spawned = some (c, w, v) →
      q.cookie = some c ∧ q.pipeline = some w ∧ q.variables = v) := by
  constructor
  · intro p
    rfl
  · intro s q c w v hsp
    rcases q with ⟨pt, ck, cap, pl, vars, r, err, st, res⟩
    cases pt
    case REGISTER => exact absurd hsp (by simp [processServerPacket])
    case SHUTDOWN => exact absurd hsp (by simp [processServerPacket])
    case RESULT => exact absurd hsp (by simp [processServerPacket])
    case CANCEL =>
      exfalso
      simp only [processServerPacket, srvCancel] at hsp
      cases ck with
      | none => simp at hsp
      | some k =>
        simp only [] at hsp
        split at hsp <;> simp at hsp
    case RUN =>
      simp only [processServerPacket, srvRun] at hsp
      split at hsp
      · simp at hsp
      · cases ck with
        | none => cases pl <;> simp at hsp
        | some k =>
          cases pl with
          | none => simp at hsp
          | some s2 =>
            simp only [] at hsp
            split at hsp
            · simp at hsp
            · split at hsp
              · simp at hsp
              · simp only [Option.some.injEq, Prod.mk.injEq] at hsp
                obtain ⟨hc, hw, hv⟩ := hsp
                subst hc
                subst hw
                subst hv
                exact ⟨rfl, rfl, rfl⟩

/-- Witness for the amended C8 at a concrete accepted RUN. -/
theorem c8_pipeline_carries_workflow_witness :
    (processServerPacket ⟨2, [], false⟩
      (some { mkPacket PacketType.RUN with
                cookie := some 9, pipeline := some "pkg.a" })).spawned =
      some (9, "pkg.a", none) ∧
    ({ mkPacket PacketType.RUN with
        cookie := some 9, pipeline := some "pkg.a" } : SocketPacket).cookie =
      some 9 ∧
    ({ mkPacket PacketType.RUN with
        cookie := some 9, pipeline := some "pkg.a" } : SocketPacket).pipeline =
      some "pkg.a" ∧
    ({ mkPacket PacketType.RUN with
        cookie := some 9, pipeline := some "pkg.a" } : SocketPacket).variables =
      none :=
  ⟨by decide,
   (c8_pipeline_carries_workflow.2 ⟨2, [], false⟩
     { mkPacket PacketType.RUN with
         cookie := some 9, pipeline := some "pkg.a" }
     9 "pkg.a" none (by decide))⟩

end ReasonChip
